import Mathlib

/-
Shallow embedding of the LAN-chat server (src/server.py): the in-memory
message log and presence map, with the operations the specification claims
are about.  Python dict message payloads become a `Message` structure whose
optional fields are `Option`-typed (a missing key reads as `none`, matching
`dict.get`); Python truthiness of those optional values is made explicit.
Timestamps that only ever feed second-granularity comparisons are modelled
as integer seconds; timestamp strings that are only stored are kept as
`String` parameters supplied by the caller (the clock is external I/O).
-/

namespace LanChat

/-- Python truthiness of an optional string: `None` and `""` are falsy,
any non-empty string is truthy (used for `target_user` checks). -/
def truthy : Option String → Bool
  | none => false
  | some s => !s.isEmpty

/-- Python truthiness of an optional boolean: a missing `delivered` key
(`dict.get` returns `None`) and `False` are falsy, `True` is truthy. -/
def dtruthy : Option Bool → Bool
  | none => false
  | some b => b

/-- One entry of the global `messages` list.  Keys that some messages lack
(`target_user`, `edited_at`, `delivered` on file messages, the file fields
on chat messages) are `Option`-typed with default `none`. -/
structure Message where
  id : String := ""
  type : String := "broadcast"
  sender : String := ""
  message : String := ""
  timestamp : String := ""
  edited : Bool := false
  delivered : Option Bool := none
  target_user : Option String := none
  edited_at : Option String := none
  filename : Option String := none
  filepath : Option String := none
  filesize : Option Nat := none
deriving DecidableEq

/-- Default message used only as the out-of-range fallback of `List.getD`. -/
def dM : Message := {}

/-- MessageManager.add_message: builds the message dict (`delivered` is set
to `False`, and a truthy `target_user` both stores the target and overrides
the type to `private`), appends it, and trims the log to the last 100
entries when it exceeds 100.  Returns the new log and the stored message. -/
def add_message (log : List Message) (sender msg : String)
    (target_user : Option String) (message_type : String)
    (idStr ts : String) : List Message × Message :=
  let base : Message :=
    { id := idStr, type := message_type, sender := sender, message := msg,
      timestamp := ts, edited := false, delivered := some false }
  let message_data :=
    if truthy target_user then
      { base with target_user := target_user, type := "private" }
    else base
  let log2 := log ++ [message_data]
  let log3 := if log2.length > 100 then log2.drop (log2.length - 100) else log2
  (log3, message_data)

/-- The per-message branch chain of MessageManager.get_filtered_messages:
system always shown; then `type == 'broadcast' or not target_user`; then
`type == 'private' or target_user` guarded by sender/receiver equality. -/
def filterPred (requesting_user : String) (m : Message) : Bool :=
  if m.type == "system" then true
  else if m.type == "broadcast" || !(truthy m.target_user) then true
  else if m.type == "private" || truthy m.target_user then
    m.sender == requesting_user || m.target_user == some requesting_user
  else false

/-- MessageManager.get_filtered_messages: empty requesting user returns the
empty list; otherwise the log is scanned in order and `filterPred` decides
membership. -/
def get_filtered_messages (requesting_user : String) (log : List Message) :
    List Message :=
  if requesting_user = "" then []
  else log.filter (filterPred requesting_user)

/-- MessageManager.edit_message: finds the first message whose id and
sender both match, rewrites its body, sets `edited` and `edited_at`, and
returns true; otherwise the log is unchanged and the result is false. -/
def edit_message (log : List Message) (message_id new_message requesting_user ts : String) :
    List Message × Bool :=
  match log with
  | [] => ([], false)
  | m :: rest =>
    if m.id == message_id && m.sender == requesting_user then
      ({ m with message := new_message, edited := true, edited_at := some ts } :: rest, true)
    else
      let r := edit_message rest message_id new_message requesting_user ts
      (m :: r.1, r.2)

/-- MessageManager.delete_message: removes the first message whose id and
sender both match and returns true; otherwise false with the log intact. -/
def delete_message (log : List Message) (message_id requesting_user : String) :
    List Message × Bool :=
  match log with
  | [] => ([], false)
  | m :: rest =>
    if m.id == message_id && m.sender == requesting_user then
      (rest, true)
    else
      let r := delete_message rest message_id requesting_user
      (m :: r.1, r.2)

/-- The loop body of MessageManager.mark_messages_as_delivered for one
message: the broadcast branch fires when the `target_user` argument is
falsy, the private branch when it is truthy; each marks an undelivered
matching message and reports 1, every other message is untouched. -/
def markOne (requesting_user : String) (target_user : Option String) (m : Message) :
    Message × Nat :=
  if !(truthy target_user) && m.type == "broadcast" then
    if m.sender != requesting_user && !(dtruthy m.delivered) then
      ({ m with delivered := some true }, 1)
    else (m, 0)
  else if truthy target_user && m.type == "private" then
    if (m.sender == requesting_user && m.target_user == target_user) ||
        (some m.sender == target_user && m.target_user == some requesting_user) then
      if !(dtruthy m.delivered) then ({ m with delivered := some true }, 1)
      else (m, 0)
    else (m, 0)
  else (m, 0)

/-- MessageManager.mark_messages_as_delivered: walk the log applying
`markOne` to each entry, accumulating the marked count. -/
def mark_messages_as_delivered (log : List Message) (requesting_user : String)
    (target_user : Option String) : List Message × Nat :=
  match log with
  | [] => ([], 0)
  | m :: rest =>
    let h := markOne requesting_user target_user m
    let r := mark_messages_as_delivered rest requesting_user target_user
    (h.1 :: r.1, h.2 + r.2)

/-- One entry of the global `online_users` dict; the two ISO-timestamp
fields are modelled as integer seconds. -/
structure Presence where
  joined : Int
  last_seen : Int
deriving DecidableEq

/-- The per-key `last_seen` assignment `online_users[username]['last_seen'] = now`:
updates the (unique) entry with that key in the association list. -/
def setLastSeen (username : String) (now : Int) :
    List (String × Presence) → List (String × Presence)
  | [] => []
  | p :: rest =>
    if p.1 = username then (p.1, { p.2 with last_seen := now }) :: rest
    else p :: setLastSeen username now rest

/-- The GET /users handler `get_users`: assigns `last_seen := now` to every
online user in turn, then returns the list of keys (and the updated map). -/
def get_users (now : Int) (online_users : List (String × Presence)) :
    List String × List (String × Presence) :=
  let updated :=
    (online_users.map Prod.fst).foldl (fun acc name => setLastSeen name now acc) online_users
  (updated.map Prod.fst, updated)

/-- One sweep iteration of cleanup_inactive_users: collects every username
whose `last_seen` is strictly more than 600 seconds before `current_time`,
then deletes those keys from the map. -/
def cleanup_inactive_users (current_time : Int)
    (online_users : List (String × Presence)) : List (String × Presence) :=
  let inactive_users :=
    (online_users.filter (fun p => current_time - p.2.last_seen > 600)).map Prod.fst
  inactive_users.foldl (fun acc name => acc.filter (fun p => !(p.1 == name))) online_users

/-- The whitespace set of Python str.strip(). -/
def pyIsSpace (c : Char) : Bool :=
  c == ' ' || c == '\t' || c == '\n' || c == '\r' || c == '\x0b' || c == '\x0c'

/-- Python str.strip(): drop leading and trailing whitespace.  (Defined on
the character list so that it is kernel-computable.) -/
def pyStrip (s : String) : String :=
  ⟨((s.data.dropWhile pyIsSpace).reverse.dropWhile pyIsSpace).reverse⟩

/-- GET /messages handler: strips the `user` query parameter, answers 400
when it is empty, otherwise returns the filtered view. -/
def handle_messages_get (rawUser : String) (log : List Message) :
    Except Nat (List Message) :=
  let requesting_user := pyStrip rawUser
  if requesting_user = "" then Except.error 400
  else Except.ok (get_filtered_messages requesting_user log)

/-- ALLOWED_EXTENSIONS from the configuration block. -/
def ALLOWED_EXTENSIONS : List String :=
  ["txt", "pdf", "png", "jpg", "jpeg", "gif", "doc", "docx", "xls", "xlsx",
   "ppt", "pptx", "zip", "rar"]

/-- MAX_FILE_SIZE = 50 MiB. -/
def MAX_FILE_SIZE : Nat := 50 * 1024 * 1024

/-- ASCII lowering of one character, modelling str.lower() on the
extension domain. -/
def pyLowerChar (c : Char) : Char :=
  if 'A' ≤ c && c ≤ 'Z' then Char.ofNat (c.toNat + 32) else c

/-- The characters after the last dot — Python rsplit of the name on a
dot, keeping the final piece.  (Kernel-computable replacement for
String.splitOn.) -/
def afterLastDot (l : List Char) : List Char :=
  (l.reverse.takeWhile (fun c => !(c == '.'))).reverse

/-- FileManager.allowed_file: the filename contains a dot and the lowered
text after the last dot is an allowed extension. -/
def allowed_file (filename : String) : Bool :=
  filename.data.contains '.' &&
    ALLOWED_EXTENSIONS.contains ⟨(afterLastDot filename.data).map pyLowerChar⟩

/-- FileManager.save_file, on its in-memory effects: validation (empty
name, extension, size) can refuse with `none`; on success the file message
is built — note it carries NO `delivered` key — and appended to the log
with no trimming.  `sanitize` stands for werkzeug's external
`secure_filename`; disk I/O (`file.save`) is outside the model, so `some`
is the successful-save path. -/
def save_file (sanitize : String → String) (log : List Message)
    (fileFilename : String) (file_size : Nat) (sender : String)
    (target_user : Option String) (idStr ts tsCompact : String) :
    Option (List Message × Message) :=
  if fileFilename = "" then none
  else if !(allowed_file fileFilename) then none
  else if file_size > MAX_FILE_SIZE then none
  else
    let filename := sanitize fileFilename
    let unique_filename := tsCompact ++ "_" ++ sender ++ "_" ++ filename
    let base : Message :=
      { id := idStr, type := "file", sender := sender,
        message := "Sent file: " ++ filename, timestamp := ts,
        edited := false, delivered := none,
        filename := some filename, filepath := some unique_filename,
        filesize := some file_size }
    let file_info :=
      if truthy target_user then { base with target_user := target_user } else base
    some (log ++ [file_info], file_info)

/-- Modelled from the words of the spec claim about FilteredView, not from
the source (kept only to compare with `get_filtered_messages`): visible iff
system, broadcast, or a private/file message sent by or addressed to the
requester. -/
def specVisiblePred (u : String) (m : Message) : Bool :=
  m.type == "system" || m.type == "broadcast" ||
    ((m.type == "private" || m.type == "file") &&
      (m.sender == u || m.target_user == some u))

/-- A file message with no target, sent by alice, as `save_file` builds it. -/
def exUntargetedFile : Message :=
  { id := "1", type := "file", sender := "alice",
    message := "Sent file: a.txt", delivered := none,
    filename := some "a.txt", filepath := some "t_alice_a.txt",
    filesize := some 1 }

/-- The predicate `get_filtered_messages` actually implements for a
non-empty requesting user: system, broadcast, anything without a truthy
target, or a message sent by or addressed to the requester. -/
def amendedVisiblePred (u : String) (m : Message) : Bool :=
  m.type == "system" || m.type == "broadcast" || !(truthy m.target_user) ||
    m.sender == u || m.target_user == some u

theorem filterPred_eq_amended (u : String) (m : Message) :
    filterPred u m = amendedVisiblePred u m := by
  cases hs : (m.type == "system") <;>
    cases hb : (m.type == "broadcast") <;>
      cases ht : truthy m.target_user <;>
        simp [filterPred, amendedVisiblePred, hs, hb, ht]

/-- C1: fails on the code.  The second branch of get_filtered_messages
admits ANY message whose `target_user` is falsy, so an untargeted
file-kind message from alice IS returned to bob, where the claim's filter
would exclude it. -/
theorem c1_filtered_view_counterexample :
    get_filtered_messages "bob" [exUntargetedFile] ≠
      [exUntargetedFile].filter (specVisiblePred "bob") ∧
    exUntargetedFile ∈ get_filtered_messages "bob" [exUntargetedFile] := by
  decide

/-- C1 amended: for every non-empty requesting user u,
get_filtered_messages returns, preserving log order, exactly the messages
that are system, broadcast, have no (truthy) targetUser, or have sender =
u or targetUser = u; in particular a file message with no targetUser is
visible to every requester. -/
theorem c1_filtered_view_amended (u : String) (log : List Message) (h : u ≠ "") :
    get_filtered_messages u log = log.filter (amendedVisiblePred u) := by
  unfold get_filtered_messages
  rw [if_neg h]
  exact List.filter_congr (fun m _ => filterPred_eq_amended u m)

theorem c1_filtered_view_amended_witness :
    get_filtered_messages "bob" [exUntargetedFile] =
      [exUntargetedFile].filter (amendedVisiblePred "bob") :=
  c1_filtered_view_amended "bob" [exUntargetedFile] (by decide)

/-- The message that the i-th call of the 105-append scenario stores. -/
def exBroadcastMsg (i : Nat) : Message :=
  { id := toString i, type := "broadcast", sender := "u",
    message := toString i, timestamp := "t", edited := false,
    delivered := some false }

/-- Appending n broadcast messages m1..mn through add_message, from an
empty log. -/
def appendRange (n : Nat) : List Message :=
  (List.range n).foldl
    (fun log i =>
      (add_message log "u" (toString (i+1)) none "broadcast" (toString (i+1)) "t").1)
    []

/-- C2: whenever an append pushes the log past 100 entries, the front is
dropped so that exactly 100 remain (the suffix of the appended log); and
appending 105 messages m1..m105 from empty leaves exactly m6..m105 in
order. -/
theorem c2_append_cap :
    (∀ (log : List Message) (s b : String) (t : Option String) (k i ts : String),
        log.length + 1 > 100 →
        (add_message log s b t k i ts).1.length = 100 ∧
        (add_message log s b t k i ts).1 =
          (log ++ [(add_message log s b t k i ts).2]).drop (log.length + 1 - 100)) ∧
    appendRange 105 = ((List.range 105).drop 5).map (fun i => exBroadcastMsg (i+1)) := by
  constructor
  · intro log s b t k i ts h
    constructor
    · simp [add_message, h]
      omega
    · simp [add_message, h]
  · set_option maxRecDepth 8000 in decide

theorem c2_append_cap_witness :
    (add_message (List.replicate 100 dM) "s" "b" none "broadcast" "i" "t").1.length = 100 ∧
    (add_message (List.replicate 100 dM) "s" "b" none "broadcast" "i" "t").1 =
      (List.replicate 100 dM ++
        [(add_message (List.replicate 100 dM) "s" "b" none "broadcast" "i" "t").2]).drop
        ((List.replicate 100 dM : List Message).length + 1 - 100) :=
  c2_append_cap.1 (List.replicate 100 dM) "s" "b" none "broadcast" "i" "t" (by simp)

/-- C3: when no message in the log has both the given id and sender =
requesting user, edit_message and delete_message return false and leave
the log unchanged — also when a message with that id exists under another
sender. -/
theorem c3_edit_delete_unauthorized (log : List Message) (mid body u ts : String)
    (h : log.all (fun m => !(m.id == mid && m.sender == u)) = true) :
    edit_message log mid body u ts = (log, false) ∧
    delete_message log mid u = (log, false) := by
  induction log with
  | nil => exact ⟨rfl, rfl⟩
  | cons m rest ih =>
    rw [List.all_cons, Bool.and_eq_true] at h
    have hm : (m.id == mid && m.sender == u) = false := by
      have h1 := h.1
      cases hb : (m.id == mid && m.sender == u)
      · rfl
      · rw [hb] at h1; exact absurd h1 (by decide)
    have hr := ih h.2
    constructor
    · simp [edit_message, hm, hr.1]
    · simp [delete_message, hm, hr.2]

theorem c3_edit_delete_unauthorized_witness :
    edit_message [exUntargetedFile] "1" "new" "bob" "t2" = ([exUntargetedFile], false) ∧
    delete_message [exUntargetedFile] "1" "bob" = ([exUntargetedFile], false) :=
  c3_edit_delete_unauthorized [exUntargetedFile] "1" "new" "bob" "t2" (by decide)

/-- Modelled from the claim wording about MarkDelivered, as a flat
per-message predicate: with no target, an undelivered broadcast not sent
by the requester; with target t, an undelivered private message exchanged
between requester and t in either direction. -/
def specMarkCond (u : String) (topt : Option String) (m : Message) : Bool :=
  match topt with
  | none => m.type == "broadcast" && m.sender != u && !(dtruthy m.delivered)
  | some t =>
    m.type == "private" &&
      ((m.sender == u && m.target_user == some t) ||
       (m.sender == t && m.target_user == some u)) &&
      !(dtruthy m.delivered)

theorem truthy_some (t : String) (h : t ≠ "") : truthy (some t) = true := by
  have he : t.isEmpty = false := by
    cases hc : t.isEmpty
    · rfl
    · exact absurd ((String.isEmpty_iff t).mp hc) h
  simp [truthy, he]

theorem markOne_spec_none (u : String) (m : Message) :
    markOne u none m =
      (if specMarkCond u none m then { m with delivered := some true } else m,
       if specMarkCond u none m then 1 else 0) := by
  by_cases hb : m.type = "broadcast" <;>
    by_cases hs : m.sender = u <;>
      cases hd : dtruthy m.delivered <;>
        simp [markOne, specMarkCond, truthy, hb, hs, hd]

theorem markOne_spec_some (u t : String) (m : Message) (ht : t ≠ "") :
    markOne u (some t) m =
      (if specMarkCond u (some t) m then { m with delivered := some true } else m,
       if specMarkCond u (some t) m then 1 else 0) := by
  have htr := truthy_some t ht
  by_cases hp : m.type = "private" <;>
    by_cases h1 : m.sender = u <;>
      by_cases h2 : m.target_user = some t <;>
        by_cases h3 : m.sender = t <;>
          by_cases h4 : m.target_user = some u <;>
            cases hd : dtruthy m.delivered <;>
              simp [markOne, specMarkCond, htr, hp, h1, h2, h3, h4, hd] <;>
                split_ifs <;> rfl

theorem mark_spec (log : List Message) (u : String) (topt : Option String)
    (h : ∀ m, markOne u topt m =
      (if specMarkCond u topt m then { m with delivered := some true } else m,
       if specMarkCond u topt m then 1 else 0)) :
    mark_messages_as_delivered log u topt =
      (log.map (fun m =>
         if specMarkCond u topt m then { m with delivered := some true } else m),
       log.countP (specMarkCond u topt)) := by
  induction log with
  | nil => rfl
  | cons m rest ih =>
    by_cases hc : specMarkCond u topt m = true <;>
      simp [mark_messages_as_delivered, h m, ih, hc, List.countP_cons,
        Prod.ext_iff] <;> omega

/-- C4: with no target, mark_messages_as_delivered sets delivered on
exactly the undelivered broadcasts from other senders; with a non-empty
target t, on exactly the undelivered private messages exchanged between
the requester and t; every other message is unchanged, and the count is
the number of matching (hence newly flipped) messages. -/
theorem c4_mark_delivered (log : List Message) (u : String) :
    mark_messages_as_delivered log u none =
      (log.map (fun m =>
         if specMarkCond u none m then { m with delivered := some true } else m),
       log.countP (specMarkCond u none)) ∧
    (∀ t : String, t ≠ "" →
      mark_messages_as_delivered log u (some t) =
        (log.map (fun m =>
           if specMarkCond u (some t) m then { m with delivered := some true } else m),
         log.countP (specMarkCond u (some t)))) := by
  refine ⟨mark_spec log u none (markOne_spec_none u), ?_⟩
  intro t ht
  exact mark_spec log u (some t) (fun m => markOne_spec_some u t m ht)

/-- An undelivered private message from alice to bob. -/
def exPrivateAB : Message :=
  { id := "p1", type := "private", sender := "alice", message := "hi",
    delivered := some false, target_user := some "bob" }

theorem c4_mark_delivered_witness :
    mark_messages_as_delivered [exPrivateAB] "bob" (some "alice") =
      ([exPrivateAB].map (fun m =>
         if specMarkCond "bob" (some "alice") m then { m with delivered := some true } else m),
       [exPrivateAB].countP (specMarkCond "bob" (some "alice"))) :=
  (c4_mark_delivered [exPrivateAB] "bob").2 "alice" (by decide)

theorem getD_of_le {α : Type} (l : List α) (i : Nat) (d : α) (h : l.length ≤ i) :
    l.getD i d = d := by
  unfold List.getD
  rw [List.get?_eq_none.mpr h]
  rfl

theorem markOne_of_delivered (u : String) (topt : Option String) (m : Message)
    (h : dtruthy m.delivered = true) : markOne u topt m = (m, 0) := by
  unfold markOne
  split_ifs <;> simp_all

theorem markOne_fst_cases (u : String) (topt : Option String) (m : Message) :
    (markOne u topt m).1 = m ∨
      (markOne u topt m).1 = { m with delivered := some true } := by
  unfold markOne
  split_ifs <;> simp

theorem markOne_cases (u : String) (topt : Option String) (m : Message) :
    markOne u topt m = (m, 0) ∨
      (dtruthy m.delivered = false ∧
       markOne u topt m = ({ m with delivered := some true }, 1)) := by
  cases hd : dtruthy m.delivered
  · unfold markOne
    split_ifs <;> simp [hd]
  · exact Or.inl (markOne_of_delivered u topt m hd)

theorem markOne_second (u : String) (topt : Option String) (m : Message) :
    markOne u topt ((markOne u topt m).1) = ((markOne u topt m).1, 0) := by
  rcases markOne_cases u topt m with h | ⟨hd, h⟩
  · rw [h]; exact h
  · rw [h]
    exact markOne_of_delivered u topt _ rfl

theorem mark_fst_map (log : List Message) (u : String) (topt : Option String) :
    (mark_messages_as_delivered log u topt).1 =
      log.map (fun m => (markOne u topt m).1) := by
  induction log with
  | nil => rfl
  | cons m rest ih => simp [mark_messages_as_delivered, ih]

theorem mark_of_fixed (log : List Message) (u : String) (topt : Option String)
    (h : ∀ m ∈ log, markOne u topt m = (m, 0)) :
    mark_messages_as_delivered log u topt = (log, 0) := by
  induction log with
  | nil => rfl
  | cons m rest ih =>
    have hm := h m (List.mem_cons_self m rest)
    have hr := ih (fun x hx => h x (List.mem_cons_of_mem m hx))
    simp [mark_messages_as_delivered, hm, hr]

/-- C5: marking is monotonic — a delivered message stays delivered at its
position — and a second identical MarkDelivered call on the resulting log
reports a count of 0. -/
theorem c5_mark_monotonic (log : List Message) (u : String) (topt : Option String) :
    (∀ i : Nat, dtruthy ((log.getD i dM).delivered) = true →
        dtruthy (((mark_messages_as_delivered log u topt).1.getD i dM).delivered) = true) ∧
    (mark_messages_as_delivered
        (mark_messages_as_delivered log u topt).1 u topt).2 = 0 := by
  constructor
  · intro i hi
    rw [mark_fst_map]
    by_cases hlt : i < log.length
    · rw [List.getD_eq_getElem _ _ (by simpa using hlt), List.getElem_map]
      rw [List.getD_eq_getElem _ _ hlt] at hi
      rcases markOne_fst_cases u topt log[i] with hc | hc <;> rw [hc]
      · exact hi
      · rfl
    · rw [getD_of_le _ _ _ (Nat.le_of_not_lt hlt)] at hi
      exact absurd hi (by decide)
  · rw [mark_fst_map]
    have h0 : ∀ x ∈ log.map (fun m => (markOne u topt m).1),
        markOne u topt x = (x, 0) := by
      intro x hx
      obtain ⟨m, _, rfl⟩ := List.mem_map.mp hx
      exact markOne_second u topt m
    rw [mark_of_fixed _ u topt h0]

/-- A broadcast from alice that is already delivered. -/
def exDeliveredBroadcast : Message :=
  { id := "d1", type := "broadcast", sender := "alice", message := "hi",
    delivered := some true }

theorem c5_mark_monotonic_witness :
    dtruthy (((mark_messages_as_delivered [exDeliveredBroadcast] "bob" none).1.getD 0 dM).delivered) = true ∧
    (mark_messages_as_delivered
        (mark_messages_as_delivered [exDeliveredBroadcast] "bob" none).1 "bob" none).2 = 0 :=
  ⟨(c5_mark_monotonic [exDeliveredBroadcast] "bob" none).1 0 (by decide),
   (c5_mark_monotonic [exDeliveredBroadcast] "bob" none).2⟩

theorem foldl_filter_ne (names : List String) (acc : List (String × Presence)) :
    names.foldl (fun acc name => acc.filter (fun p => !(p.1 == name))) acc =
      acc.filter (fun p => !(names.contains p.1)) := by
  induction names generalizing acc with
  | nil => simp
  | cons n rest ih =>
    rw [List.foldl_cons, ih, List.filter_filter]
    refine List.filter_congr ?_
    intro p _
    rw [List.contains_cons]
    cases hc : (p.1 == n) <;> cases hr : rest.contains p.1 <;> rfl

/-- C6: one sweep of cleanup_inactive_users removes exactly the entries
whose last_seen is strictly more than 600 seconds before now (the others
are kept untouched, in order); an entry 601 seconds stale is evicted and
one 599 seconds stale is kept. -/
theorem c6_presence_sweep (now : Int) (online : List (String × Presence))
    (h : (online.map Prod.fst).Nodup) :
    cleanup_inactive_users now online =
      online.filter (fun p => decide (now - p.2.last_seen ≤ 600)) ∧
    cleanup_inactive_users 1000 [("a", ⟨0, 399⟩), ("b", ⟨0, 401⟩)] =
      [("b", ⟨0, 401⟩)] := by
  constructor
  · simp only [cleanup_inactive_users]
    rw [foldl_filter_ne]
    refine List.filter_congr ?_
    intro p hp
    by_cases hs : now - p.2.last_seen > 600
    · have hmem : p.1 ∈
          ((online.filter (fun q => decide (now - q.2.last_seen > 600))).map Prod.fst) :=
        List.mem_map.mpr ⟨p, List.mem_filter.mpr ⟨hp, by simpa using hs⟩, rfl⟩
      have hc : ((online.filter (fun q => decide (now - q.2.last_seen > 600))).map
          Prod.fst).contains p.1 = true := List.elem_iff.mpr hmem
      rw [hc]
      symm
      simp only [Bool.not_true, decide_eq_false_iff_not]
      omega
    · have hnot : p.1 ∉
          ((online.filter (fun q => decide (now - q.2.last_seen > 600))).map Prod.fst) := by
        intro hmem
        obtain ⟨q, hq, hq1⟩ := List.mem_map.mp hmem
        obtain ⟨hqo, hqs⟩ := List.mem_filter.mp hq
        have hqp := List.inj_on_of_nodup_map h hqo hp hq1
        rw [hqp] at hqs
        exact hs (by simpa using hqs)
      have hc : ((online.filter (fun q => decide (now - q.2.last_seen > 600))).map
          Prod.fst).contains p.1 = false := by
        cases hcc : ((online.filter (fun q => decide (now - q.2.last_seen > 600))).map
            Prod.fst).contains p.1
        · rfl
        · exact absurd (List.elem_iff.mp hcc) hnot
      rw [hc]
      symm
      simp only [Bool.not_false, decide_eq_true_eq]
      omega
  · decide

theorem c6_presence_sweep_witness :
    cleanup_inactive_users 1000 [("a", ⟨0, 399⟩), ("b", ⟨0, 401⟩)] =
      ([("a", (⟨0, 399⟩ : Presence)), ("b", ⟨0, 401⟩)].filter
        (fun p => decide ((1000 : Int) - p.2.last_seen ≤ 600))) :=
  (c6_presence_sweep 1000 [("a", ⟨0, 399⟩), ("b", ⟨0, 401⟩)] (by decide)).1

theorem foldl_setLastSeen_cons (now : Int) (names : List String) (k : String)
    (v : Presence) (rest : List (String × Presence)) (h : k ∉ names) :
    names.foldl (fun acc n => setLastSeen n now acc) ((k, v) :: rest) =
      (k, v) :: names.foldl (fun acc n => setLastSeen n now acc) rest := by
  induction names generalizing rest with
  | nil => rfl
  | cons n ns ih =>
    rw [List.foldl_cons, List.foldl_cons]
    have hk : k ≠ n := fun hh => h (hh ▸ List.mem_cons_self n ns)
    simp only [setLastSeen, if_neg hk]
    exact ih (setLastSeen n now rest) (fun hm => h (List.mem_cons_of_mem n hm))

/-- C7: the GET /users handler returns the online usernames in map order
and, as its only side effect, sets last_seen of EVERY online user to now —
the key set and each joined field are unchanged. -/
theorem c7_get_users (now : Int) (online : List (String × Presence))
    (h : (online.map Prod.fst).Nodup) :
    get_users now online =
      (online.map Prod.fst,
       online.map (fun p => (p.1, { p.2 with last_seen := now }))) := by
  have key : ∀ l : List (String × Presence), (l.map Prod.fst).Nodup →
      (l.map Prod.fst).foldl (fun acc name => setLastSeen name now acc) l =
        l.map (fun p => (p.1, { p.2 with last_seen := now })) := by
    intro l hl
    induction l with
    | nil => rfl
    | cons p rest ih =>
      rw [List.map_cons] at hl
      obtain ⟨hnot, hrest⟩ := List.nodup_cons.mp hl
      rw [List.map_cons, List.foldl_cons]
      have h1 : setLastSeen p.1 now (p :: rest) =
          (p.1, { p.2 with last_seen := now }) :: rest := by
        simp [setLastSeen]
      rw [h1, foldl_setLastSeen_cons now (rest.map Prod.fst) p.1 _ rest hnot,
        ih hrest]
      rfl
  simp only [get_users]
  rw [key online h, Prod.mk.injEq]
  refine ⟨?_, rfl⟩
  rw [List.map_map]
  rfl

theorem c7_get_users_witness :
    get_users 50 [("a", ⟨1, 2⟩), ("b", ⟨3, 4⟩)] =
      ([("a", (⟨1, 2⟩ : Presence)), ("b", ⟨3, 4⟩)].map Prod.fst,
       [("a", (⟨1, 2⟩ : Presence)), ("b", ⟨3, 4⟩)].map
         (fun p => (p.1, { p.2 with last_seen := 50 }))) :=
  c7_get_users 50 [("a", ⟨1, 2⟩), ("b", ⟨3, 4⟩)] (by decide)

/-- C8: the GET /messages handler answers 400 whenever the user query
parameter strips to the empty string, and in that case it never produces
a message list. -/
theorem c8_empty_user_rejected (rawUser : String) (log : List Message)
    (h : pyStrip rawUser = "") :
    handle_messages_get rawUser log = Except.error 400 ∧
    ∀ ms : List Message, handle_messages_get rawUser log ≠ Except.ok ms := by
  have he : handle_messages_get rawUser log = Except.error 400 := by
    simp [handle_messages_get, h]
  refine ⟨he, fun ms hc => ?_⟩
  rw [he] at hc
  exact Except.noConfusion hc

theorem c8_empty_user_rejected_witness :
    handle_messages_get "  " [exUntargetedFile] = Except.error 400 ∧
    ∀ ms : List Message, handle_messages_get "  " [exUntargetedFile] ≠ Except.ok ms :=
  c8_empty_user_rejected "  " [exUntargetedFile] (by decide)

/-- C9: a successful save_file appends its file message at the end of the
log, leaving every earlier message in place — there is no trimming, so the
log grows by exactly one even past 100 entries. -/
theorem c9_save_file_appends (sanitize : String → String) (log : List Message)
    (fn : String) (sz : Nat) (sender : String) (tgt : Option String)
    (idStr ts tsc : String) (log2 : List Message) (fi : Message)
    (h : save_file sanitize log fn sz sender tgt idStr ts tsc = some (log2, fi)) :
    log2 = log ++ [fi] ∧ fi.type = "file" ∧ log2.length = log.length + 1 := by
  unfold save_file at h
  split_ifs at h <;> try exact Option.noConfusion h
  all_goals
    simp only [Option.some.injEq, Prod.mk.injEq] at h
    obtain ⟨h1, h2⟩ := h
    subst h2
    subst h1
    exact ⟨rfl, rfl, by simp⟩

/-- The file message that the c9 witness scenario stores. -/
def exSavedFile : Message :=
  { id := "i", type := "file", sender := "alice",
    message := "Sent file: a.txt", timestamp := "ts", edited := false,
    delivered := none, filename := some "a.txt",
    filepath := some "tc_alice_a.txt", filesize := some 1 }

theorem c9_save_file_appends_witness :
    List.replicate 100 dM ++ [exSavedFile] = List.replicate 100 dM ++ [exSavedFile] ∧
    exSavedFile.type = "file" ∧
    (List.replicate 100 dM ++ [exSavedFile] : List Message).length =
      (List.replicate 100 dM : List Message).length + 1 :=
  c9_save_file_appends (fun s => s) (List.replicate 100 dM) "a.txt" 1 "alice" none
    "i" "ts" "tc" (List.replicate 100 dM ++ [exSavedFile]) exSavedFile (by decide)

theorem markOne_file (u : String) (topt : Option String) (m : Message)
    (h : m.type = "file") : markOne u topt m = (m, 0) := by
  unfold markOne
  split_ifs <;> simp_all

/-- C10: mark_messages_as_delivered leaves every file-kind message in the
log untouched at its position, and the count it returns is the same as on
the log with the file messages removed — files contribute 0. -/
theorem c10_mark_skips_files (log : List Message) (u : String) (topt : Option String) :
    (∀ i : Nat, (log.getD i dM).type = "file" →
        (mark_messages_as_delivered log u topt).1.getD i dM = log.getD i dM) ∧
    (mark_messages_as_delivered log u topt).2 =
      (mark_messages_as_delivered (log.filter (fun m => !(m.type == "file"))) u topt).2 := by
  constructor
  · intro i hi
    rw [mark_fst_map]
    by_cases hlt : i < log.length
    · rw [List.getD_eq_getElem _ _ hlt] at hi
      rw [List.getD_eq_getElem _ _ (by simpa using hlt), List.getElem_map,
        List.getD_eq_getElem _ _ hlt, markOne_file u topt _ hi]
    · rw [getD_of_le _ _ _ (Nat.le_of_not_lt hlt),
        getD_of_le _ _ _ (by simpa using Nat.le_of_not_lt hlt)]
  · induction log with
    | nil => rfl
    | cons m rest ih =>
      by_cases hf : m.type = "file"
      · have hm := markOne_file u topt m hf
        simp [mark_messages_as_delivered, hm, hf, ih]
      · simp [mark_messages_as_delivered, hf, ih]

/-- An undelivered file message from alice addressed to bob. -/
def exFileToBob : Message :=
  { id := "f2", type := "file", sender := "alice",
    message := "Sent file: b.txt", delivered := none,
    target_user := some "bob", filename := some "b.txt",
    filepath := some "t_alice_b.txt", filesize := some 2 }

theorem c10_mark_skips_files_witness :
    (mark_messages_as_delivered [exFileToBob] "bob" (some "alice")).1.getD 0 dM =
      [exFileToBob].getD 0 dM ∧
    (mark_messages_as_delivered [exFileToBob] "bob" (some "alice")).2 =
      (mark_messages_as_delivered ([exFileToBob].filter (fun m => !(m.type == "file")))
        "bob" (some "alice")).2 :=
  ⟨(c10_mark_skips_files [exFileToBob] "bob" (some "alice")).1 0 (by decide),
   (c10_mark_skips_files [exFileToBob] "bob" (some "alice")).2⟩

end LanChat
